import Mathlib

/-!
Shallow embedding of the discovery-graph query and listener code of
rmw_connext_shared_cpp:

* src/node_names.cpp — get_node_names
* src/types/custom_publisher_listener.cpp — CustomPublisherListener::on_data_available

Machine state that the C++ mutates (the caller's output string arrays, the
temporary buffers, the allocator) is threaded explicitly.  Allocation
nondeterminism is an oracle alloc : Nat → Bool answering the successive
allocation requests in program order.
-/

namespace RmwConnext

/-- rmw_ret_t status codes used by node_names.cpp. -/
inductive RmwRet
  | ok
  | error
  | badAlloc
deriving DecidableEq, Repr

/-- rcutils_ret_t status codes relevant here. -/
inductive RcutilsRet
  | ok
  | badAlloc
deriving DecidableEq, Repr

/-- Modelled from the spec: the outer middleware's error-code conversion
rmw_convert_rcutils_ret_to_rmw_ret (not under src/), mapping success to
success and allocation failure to the resource-exhaustion code. -/
def rmw_convert_rcutils_ret_to_rmw_ret : RcutilsRet → RmwRet
  | .ok => .ok
  | .badAlloc => .badAlloc

/-- A caller-visible string array (rcutils_string_array_t): each slot is a
string or null.  The zero-initialized state is the empty array. -/
abbrev StringArray := List (Option String)

/-- Modelled from the spec: rmw_check_zero_rmw_string_array (not under
src/) succeeds exactly when the caller's array is still zero-initialized. -/
def rmw_check_zero_rmw_string_array (arr : StringArray) : RmwRet :=
  if arr.isEmpty then .ok else .error

/-- rcutils_string_array_init: on success yields size null slots;
allocation failure yields RCUTILS_RET_BAD_ALLOC.  The Boolean is the
allocator's answer for this allocation. -/
def rcutils_string_array_init (size : Nat) (succeed : Bool) :
    Except RcutilsRet StringArray :=
  if succeed then .ok (List.replicate size none) else .error .badAlloc

/-- rcutils_strdup: duplicating a null pointer yields null; otherwise the
copy succeeds exactly when the allocator provides memory. -/
def rcutils_strdup (s : Option String) (succeed : Bool) : Option String :=
  match s with
  | none => none
  | some str => if succeed then some str else none

/-- What get_node_names reads about one discovered participant handle:
whether get_discovered_participant_data succeeded, the key/value map
parsed from its user_data (rmw::impl::cpp::parse_key_value), and the
transport-level participant name (a possibly-null string). -/
structure DiscoveredParticipant where
  dataOk : Bool
  userData : List (String × String)
  participant_name : Option String
deriving DecidableEq, Repr

/-- Name and namespace resolution for one discovered participant
(node_names.cpp lines 110-137): on a successful data fetch, name is the
user-data name entry, falling back to the non-null transport participant
name when empty; namespace is the user-data namespace entry.  A failed
fetch leaves both empty. -/
def resolveName (p : DiscoveredParticipant) : String × String :=
  if p.dataOk then
    let name :=
      match p.userData.lookup "name" with
      | some v => v
      | none => ""
    let namespace_ :=
      match p.userData.lookup "namespace" with
      | some v => v
      | none => ""
    let name :=
      if name = "" then
        match p.participant_name with
        | some pname => pname
        | none => name
      else name
    (name, namespace_)
  else ("", "")

/-- Specification-level summary: the (name, namespace) pairs of the
discovered participants whose resolved name is non-empty, in discovery
order. -/
def namedParticipants (ps : List DiscoveredParticipant) : List (String × String) :=
  (ps.map resolveName).filter (fun nn => decide (nn.1 ≠ ""))

/-- The participant loop of get_node_names (lines 109-161).  i is the loop
index, num the write index named_nodes_num, c counts allocator requests;
a strdup failure jumps to cleanup carrying final_ret computed from the
rcutils_ret value current at loop entry (rret). -/
def gnnLoop (alloc : Nat → Bool) (rret : RcutilsRet) :
    List DiscoveredParticipant → Nat → StringArray → StringArray → Nat → Nat →
    Except RmwRet (StringArray × StringArray × Nat × Nat)
  | [], _, tmpNames, tmpNamespaces, num, c => .ok (tmpNames, tmpNamespaces, num, c)
  | p :: rest, i, tmpNames, tmpNamespaces, num, c =>
    let nn := resolveName p
    if nn.1 = "" then
      gnnLoop alloc rret rest (i + 1) (tmpNames.set i none) (tmpNamespaces.set i none) num c
    else
      let s1 := rcutils_strdup (some nn.1) (alloc c)
      let tmpNames' := tmpNames.set num s1
      match s1 with
      | none => .error (rmw_convert_rcutils_ret_to_rmw_ret rret)
      | some _ =>
        let s2 := rcutils_strdup (some nn.2) (alloc (c + 1))
        let tmpNamespaces' := tmpNamespaces.set num s2
        match s2 with
        | none => .error (rmw_convert_rcutils_ret_to_rmw_ret rret)
        | some _ =>
          gnnLoop alloc rret rest (i + 1) tmpNames' tmpNamespaces' (num + 1) (c + 2)

/-- The output copy loop of get_node_names (lines 179-185): copies
named_nodes_num entries from the temporary buffers into the freshly
allocated outputs, nulling each temporary slot; strdup results are not
checked here. -/
def gnnCopy (alloc : Nat → Bool) :
    Nat → Nat → StringArray → StringArray → StringArray → StringArray → Nat →
    StringArray × StringArray × StringArray × StringArray × Nat
  | 0, _, tmpNames, tmpNamespaces, outNames, outNamespaces, c =>
    (tmpNames, tmpNamespaces, outNames, outNamespaces, c)
  | k + 1, i, tmpNames, tmpNamespaces, outNames, outNamespaces, c =>
    let outNames' := outNames.set i (rcutils_strdup (tmpNames.getD i none) (alloc c))
    let tmpNames' := tmpNames.set i none
    let outNamespaces' :=
      outNamespaces.set i (rcutils_strdup (tmpNamespaces.getD i none) (alloc (c + 1)))
    let tmpNamespaces' := tmpNamespaces.set i none
    gnnCopy alloc k (i + 1) tmpNames' tmpNamespaces' outNames' outNamespaces' (c + 2)

/-- DDS participant QoS as read here: participant_name.name may be null. -/
structure DomainParticipantQos where
  participant_name : Option String
deriving DecidableEq, Repr

/-- The DDS domain participant behavior get_node_names depends on:
get_discovered_participants (none = RETCODE failure) and get_qos (none =
failure).  Each discovered handle is summarized by what
get_discovered_participant_data returns for it. -/
structure DomainParticipant where
  discovered_participants : Option (List DiscoveredParticipant)
  qos : Option DomainParticipantQos
deriving DecidableEq, Repr

/-- ConnextNodeInfo: node->data holds the participant. -/
structure ConnextNodeInfo where
  participant : DomainParticipant
deriving DecidableEq, Repr

/-- The rmw node handle fields used: implementation identifier (pointer
identity, modeled as a number), the node namespace, and the node data. -/
structure NodeHandle where
  implementation_identifier : Nat
  namespace_ : String
  data : ConnextNodeInfo
deriving DecidableEq, Repr

/-- Result of get_node_names: status plus the caller-visible contents of
the two output arrays. -/
structure GNNResult where
  ret : RmwRet
  node_names : StringArray
  node_namespaces : StringArray
deriving DecidableEq, Repr

/-- The cleanup label (lines 203-243): both caller arrays and both
temporaries are finalized back to the zero state; final_ret is returned. -/
def gnnCleanup (final_ret : RmwRet) : GNNResult :=
  ⟨final_ret, [], []⟩

/-- get_node_names after the handle checks and discovery fetches succeed
(lines 65-201): temporary allocation, self entry, participant loop,
output marshalling. -/
def gnnBody (alloc : Nat → Bool) (participant_qos : DomainParticipantQos)
    (namespace_ : String) (handles : List DiscoveredParticipant) : GNNResult :=
  let length := handles.length + 1
  match rcutils_string_array_init length (alloc 0) with
  | .error r => gnnCleanup (rmw_convert_rcutils_ret_to_rmw_ret r)
  | .ok tmp_names_list =>
    match rcutils_string_array_init length (alloc 1) with
    | .error r => gnnCleanup (rmw_convert_rcutils_ret_to_rmw_ret r)
    | .ok tmp_namespaces_list =>
      let s0 := rcutils_strdup participant_qos.participant_name (alloc 2)
      let tmp_names_list := tmp_names_list.set 0 s0
      match s0 with
      | none => gnnCleanup (rmw_convert_rcutils_ret_to_rmw_ret RcutilsRet.ok)
      | some _ =>
        let s1 := rcutils_strdup (some namespace_) (alloc 3)
        let tmp_namespaces_list := tmp_namespaces_list.set 0 s1
        match s1 with
        | none => gnnCleanup (rmw_convert_rcutils_ret_to_rmw_ret RcutilsRet.ok)
        | some _ =>
          match gnnLoop alloc RcutilsRet.ok handles 1 tmp_names_list tmp_namespaces_list 1 4 with
          | .error final_ret => gnnCleanup final_ret
          | .ok (tmpNames, tmpNamespaces, named_nodes_num, c) =>
            match rcutils_string_array_init named_nodes_num (alloc c) with
            | .error r => gnnCleanup (rmw_convert_rcutils_ret_to_rmw_ret r)
            | .ok outNames =>
              match rcutils_string_array_init named_nodes_num (alloc (c + 1)) with
              | .error r => gnnCleanup (rmw_convert_rcutils_ret_to_rmw_ret r)
              | .ok outNamespaces =>
                let res :=
                  gnnCopy alloc named_nodes_num 0 tmpNames tmpNamespaces outNames outNamespaces
                    (c + 2)
                ⟨RmwRet.ok, res.2.2.1, res.2.2.2.1⟩

/-- get_node_names (node_names.cpp lines 30-244). -/
def get_node_names (implementation_identifier : Nat) (node : Option NodeHandle)
    (node_names node_namespaces : StringArray) (alloc : Nat → Bool) : GNNResult :=
  match node with
  | none => ⟨RmwRet.error, node_names, node_namespaces⟩
  | some nd =>
    if nd.implementation_identifier ≠ implementation_identifier then
      ⟨RmwRet.error, node_names, node_namespaces⟩
    else if rmw_check_zero_rmw_string_array node_names ≠ RmwRet.ok then
      ⟨RmwRet.error, node_names, node_namespaces⟩
    else
      match nd.data.participant.discovered_participants with
      | none => ⟨RmwRet.error, node_names, node_namespaces⟩
      | some handles =>
        match nd.data.participant.qos with
        | none => ⟨RmwRet.error, node_names, node_namespaces⟩
        | some participant_qos =>
          gnnBody alloc participant_qos nd.namespace_ handles

/-- 16-byte entity identifier, abstracted to its value. -/
structure GUID where
  val : Nat
deriving DecidableEq, Repr

/-- A native DDS instance handle, abstracted to its value. -/
structure InstanceHandle where
  val : Nat
deriving DecidableEq, Repr

/-- A built-in topic key, abstracted to its value. -/
structure BuiltinTopicKey where
  val : Nat
deriving DecidableEq, Repr

/-- Modelled from the spec: the GUID codec (guid_helper, not under src/):
a pure, total, deterministic conversion from a native instance handle to
the canonical identifier. -/
def DDS_InstanceHandle_to_GUID (h : InstanceHandle) : GUID := ⟨h.val⟩

/-- Modelled from the spec: extraction of the owning participant's GUID
from an endpoint's built-in topic key (guid_helper, not under src/). -/
def DDS_BuiltinTopicKey_to_GUID (k : BuiltinTopicKey) : GUID := ⟨k.val⟩

/-- DDS sample instance states. -/
inductive InstanceState
  | alive
  | notAliveDisposed
  | notAliveNoWriters
deriving DecidableEq, Repr

/-- The sample-info fields read by the listener. -/
structure SampleInfo where
  valid_data : Bool
  instance_state : InstanceState
  instance_handle : InstanceHandle
deriving DecidableEq, Repr

/-- The publication built-in topic data fields read by the listener. -/
structure PublicationBuiltinTopicData where
  participant_key : BuiltinTopicKey
  topic_name : String
  type_name : String
deriving DecidableEq, Repr

/-- EntityType from rmw_connext_shared_cpp/types.hpp. -/
inductive EntityType
  | Participant
  | Publisher
  | Subscriber
deriving DecidableEq, Repr

/-- A mutation applied to the discovery graph cache. -/
inductive CacheOp
  | add (participant_guid guid : GUID) (topic_name type_name : String) (kind : EntityType)
  | remove (guid : GUID) (kind : EntityType)
deriving DecidableEq, Repr

/-- Outcome of the take call on the built-in reader. -/
inductive TakeResult
  | ok (samples : List (PublicationBuiltinTopicData × SampleInfo))
  | noData
  | error
deriving DecidableEq, Repr

/-- The per-sample body of CustomPublisherListener::on_data_available
(custom_publisher_listener.cpp lines 47-66). -/
def processSamples : List (PublicationBuiltinTopicData × SampleInfo) → List CacheOp
  | [] => []
  | (d, info) :: rest =>
    let guid := DDS_InstanceHandle_to_GUID info.instance_handle
    (if info.valid_data && decide (info.instance_state = InstanceState.alive) then
      CacheOp.add (DDS_BuiltinTopicKey_to_GUID d.participant_key) guid
        d.topic_name d.type_name EntityType.Publisher
    else
      CacheOp.remove guid EntityType.Publisher) :: processSamples rest

/-- CustomPublisherListener::on_data_available (lines 23-73): yields the
cache operations applied and the number of graph guard condition
triggers.  narrowOk models whether the reader narrow succeeds; tk models
the take call outcome. -/
def on_data_available (narrowOk : Bool) (tk : TakeResult) : List CacheOp × Nat :=
  if !narrowOk then ([], 0)
  else
    match tk with
    | TakeResult.noData => ([], 0)
    | TakeResult.error => ([], 0)
    | TakeResult.ok samples =>
      (processSamples samples, if samples.length > 0 then 1 else 0)

/-! ### Helper lemmas -/

theorem rcutils_strdup_true (o : Option String) : rcutils_strdup o true = o := by
  cases o <;> simp [rcutils_strdup]

theorem set_replicate_self {α : Type _} (a : α) :
    ∀ (n i : Nat), (List.replicate n a).set i a = List.replicate n a
  | 0, _ => rfl
  | _ + 1, 0 => by simp [List.replicate_succ]
  | n + 1, i + 1 => by
    simp [List.replicate_succ, set_replicate_self a n i]

theorem namedParticipants_nil : namedParticipants [] = [] := rfl

theorem namedParticipants_cons (p : DiscoveredParticipant) (ps : List DiscoveredParticipant) :
    namedParticipants (p :: ps) =
      if (resolveName p).1 = "" then namedParticipants ps
      else resolveName p :: namedParticipants ps := by
  by_cases h : (resolveName p).1 = "" <;>
    simp [namedParticipants, List.filter_cons, h]

/-- Characterization of the participant loop when no allocation fails:
starting from buffers whose first num slots are filled (F, G) and the rest
null, it appends exactly the named participants and advances the write
index by their number. -/
theorem gnnLoop_success (alloc : Nat → Bool) (hA : ∀ k, alloc k = true) (rret : RcutilsRet) :
    ∀ (rest : List DiscoveredParticipant) (F G : StringArray) (i num c m : Nat),
      F.length = num → G.length = num → num ≤ i → i + rest.length ≤ num + m →
      ∃ c₂,
        gnnLoop alloc rret rest i (F ++ List.replicate m none) (G ++ List.replicate m none) num c
          = .ok (F ++ (namedParticipants rest).map (fun nn => some nn.1)
                   ++ List.replicate (m - (namedParticipants rest).length) none,
                 G ++ (namedParticipants rest).map (fun nn => some nn.2)
                   ++ List.replicate (m - (namedParticipants rest).length) none,
                 num + (namedParticipants rest).length, c₂) := by
  intro rest
  induction rest with
  | nil =>
    intro F G i num c m hF hG _ _
    exact ⟨c, by simp [gnnLoop, namedParticipants]⟩
  | cons p rest ih =>
    intro F G i num c m hF hG hni hbound
    simp only [List.length_cons] at hbound
    by_cases hname : (resolveName p).1 = ""
    · -- skip branch: the participant is unnamed, slot i is nulled (a no-op)
      have hFi : F.length ≤ i := hF ▸ hni
      have hset :
          (F ++ List.replicate m none).set i (none : Option String)
            = F ++ List.replicate m none := by
        rw [List.set_append_right i none hFi, set_replicate_self]
      obtain ⟨c₂, hrec⟩ := ih F G (i + 1) num c m hF hG (Nat.le_succ_of_le hni)
        (by omega)
      have hsetG :
          (G ++ List.replicate m none).set i (none : Option String)
            = G ++ List.replicate m none := by
        rw [List.set_append_right i none (hG ▸ hni), set_replicate_self]
      refine ⟨c₂, ?_⟩
      rw [gnnLoop, if_pos hname, hset, hsetG, hrec, namedParticipants_cons, if_pos hname]
    · -- named branch: both strdups succeed and the entry lands at index num
      have hm : 1 ≤ m := by omega
      obtain ⟨m', rfl⟩ : ∃ m', m = m' + 1 := ⟨m - 1, by omega⟩
      have hsetF :
          (F ++ List.replicate (m' + 1) none).set num (some (resolveName p).1)
            = (F ++ [some (resolveName p).1]) ++ List.replicate m' none := by
        rw [List.set_append_right num _ (le_of_eq hF), hF, Nat.sub_self,
          List.replicate_succ]
        simp
      have hsetG :
          (G ++ List.replicate (m' + 1) none).set num (some (resolveName p).2)
            = (G ++ [some (resolveName p).2]) ++ List.replicate m' none := by
        rw [List.set_append_right num _ (le_of_eq hG), hG, Nat.sub_self,
          List.replicate_succ]
        simp
      obtain ⟨c₂, hrec⟩ := ih (F ++ [some (resolveName p).1]) (G ++ [some (resolveName p).2])
        (i + 1) (num + 1) (c + 2) m' (by simp [hF]) (by simp [hG]) (by omega) (by omega)
      refine ⟨c₂, ?_⟩
      rw [gnnLoop, if_neg hname]
      simp only [hA, rcutils_strdup_true]
      rw [hsetF, hsetG, hrec, namedParticipants_cons, if_neg hname]
      simp [Nat.succ_sub_succ, Nat.add_assoc, Nat.add_comm 1]

/-- Characterization of the output copy loop when no allocation fails:
copying k = F.length slots starting at index i = P.length moves exactly F
(resp. G) into the output arrays. -/
theorem gnnCopy_extract (alloc : Nat → Bool) (hA : ∀ k, alloc k = true) :
    ∀ (F G P Q r₁ r₂ A B : StringArray) (c i : Nat),
      F.length = G.length → P.length = i → Q.length = i → A.length = i → B.length = i →
      (gnnCopy alloc F.length i (P ++ F ++ r₁) (Q ++ G ++ r₂)
          (A ++ List.replicate F.length none) (B ++ List.replicate G.length none) c).2.2.1
        = A ++ F ∧
      (gnnCopy alloc F.length i (P ++ F ++ r₁) (Q ++ G ++ r₂)
          (A ++ List.replicate F.length none) (B ++ List.replicate G.length none) c).2.2.2.1
        = B ++ G := by
  intro F
  induction F with
  | nil =>
    intro G P Q r₁ r₂ A B c i hFG hP hQ hA' hB
    obtain rfl : G = [] := List.length_eq_zero.mp hFG.symm
    simp [gnnCopy]
  | cons f F ih =>
    intro G P Q r₁ r₂ A B c i hFG hP hQ hA' hB
    obtain ⟨g, G, rfl⟩ : ∃ g G', G = g :: G' := by
      cases G with
      | nil => simp at hFG
      | cons g G' => exact ⟨g, G', rfl⟩
    simp only [List.length_cons] at hFG ⊢
    have hFG' : F.length = G.length := by omega
    -- the value read at index i is f (resp. g)
    have hiP : i < (P ++ (f :: F)).length := by simp [hP]
    have hiQ : i < (Q ++ (g :: G)).length := by simp [hQ]
    have hreadF : (P ++ (f :: F) ++ r₁).getD i none = f := by
      rw [List.getD_append _ _ _ i hiP,
        List.getD_append_right _ _ _ i (le_of_eq hP), hP, Nat.sub_self]
      rfl
    have hreadG : (Q ++ (g :: G) ++ r₂).getD i none = g := by
      rw [List.getD_append _ _ _ i hiQ,
        List.getD_append_right _ _ _ i (le_of_eq hQ), hQ, Nat.sub_self]
      rfl
    -- the write into the output array extends the filled prefix
    have hwriteF :
        (A ++ List.replicate (F.length + 1) none).set i f
          = (A ++ [f]) ++ List.replicate F.length none := by
      rw [List.set_append_right i f (le_of_eq hA'), hA', Nat.sub_self, List.replicate_succ]
      simp
    have hwriteG :
        (B ++ List.replicate (G.length + 1) none).set i g
          = (B ++ [g]) ++ List.replicate G.length none := by
      rw [List.set_append_right i g (le_of_eq hB), hB, Nat.sub_self, List.replicate_succ]
      simp
    -- nulling the temporary slot re-shapes the temporaries for the tail
    have htmpF :
        (P ++ (f :: F) ++ r₁).set i (none : Option String)
          = (P ++ [none]) ++ F ++ r₁ := by
      rw [List.set_append_left i none hiP,
        List.set_append_right i none (le_of_eq hP), hP, Nat.sub_self]
      simp
    have htmpG :
        (Q ++ (g :: G) ++ r₂).set i (none : Option String)
          = (Q ++ [none]) ++ G ++ r₂ := by
      rw [List.set_append_left i none hiQ,
        List.set_append_right i none (le_of_eq hQ), hQ, Nat.sub_self]
      simp
    have step := ih G (P ++ [none]) (Q ++ [none]) r₁ r₂ (A ++ [f]) (B ++ [g]) (c + 2) (i + 1)
      hFG' (by simp [hP]) (by simp [hQ]) (by simp [hA']) (by simp [hB])
    rw [gnnCopy, hA c, hA (c + 1), hreadF, hreadG, rcutils_strdup_true, rcutils_strdup_true,
      hwriteF, hwriteG, htmpF, htmpG]
    rw [step.1, step.2] at *
    exact ⟨by simp [step.1], by simp [step.2]⟩

/-- Characterization of gnnBody when every allocation succeeds and the
participant name in the QoS is non-null. -/
theorem gnnBody_success (alloc : Nat → Bool) (hA : ∀ k, alloc k = true)
    (sn ns : String) (hs : List DiscoveredParticipant) :
    gnnBody alloc ⟨some sn⟩ ns hs =
      ⟨RmwRet.ok,
       some sn :: (namedParticipants hs).map (fun nn => some nn.1),
       some ns :: (namedParticipants hs).map (fun nn => some nn.2)⟩ := by
  obtain ⟨c₂, hloop⟩ := gnnLoop_success alloc hA RcutilsRet.ok hs [some sn] [some ns]
    1 1 4 hs.length rfl rfl (le_refl 1) (by omega)
  have hcopy := gnnCopy_extract alloc hA
    (some sn :: (namedParticipants hs).map (fun nn => some nn.1))
    (some ns :: (namedParticipants hs).map (fun nn => some nn.2))
    [] [] (List.replicate (hs.length - (namedParticipants hs).length) none)
    (List.replicate (hs.length - (namedParticipants hs).length) none)
    [] [] (c₂ + 2) 0 (by simp) rfl rfl rfl rfl
  simp only [List.nil_append, List.length_cons, List.length_map] at hcopy
  simp only [gnnBody, rcutils_string_array_init, hA, if_true, rcutils_strdup_true,
    rcutils_strdup]
  rw [List.replicate_succ]
  simp only [List.set_cons_zero]
  have hshape : ∀ (x : Option String),
      x :: List.replicate hs.length (none : Option String)
        = [x] ++ List.replicate hs.length none := by intro x; simp
  rw [hshape, hshape, hloop]
  simp only [List.nil_append] at *
  rw [show 1 + (namedParticipants hs).length = (namedParticipants hs).length + 1 from
    Nat.add_comm 1 _]
  simp only [List.singleton_append]
  rw [hcopy.1, hcopy.2]

/-- Characterization of get_node_names on the success path: valid handle,
zero-initialized node_names, successful discovery fetches, non-null own
participant name, and no allocation failure. -/
theorem get_node_names_ok_spec (impl : Nat) (nd : NodeHandle) (nss0 : StringArray)
    (alloc : Nat → Bool) (hA : ∀ k, alloc k = true)
    (himpl : nd.implementation_identifier = impl)
    (hs : List DiscoveredParticipant)
    (hdisc : nd.data.participant.discovered_participants = some hs)
    (sn : String) (hq : nd.data.participant.qos = some ⟨some sn⟩) :
    get_node_names impl (some nd) [] nss0 alloc =
      ⟨RmwRet.ok,
       some sn :: (namedParticipants hs).map (fun nn => some nn.1),
       some nd.namespace_ :: (namedParticipants hs).map (fun nn => some nn.2)⟩ := by
  simp [get_node_names, himpl, hdisc, hq, rmw_check_zero_rmw_string_array]
  exact gnnBody_success alloc hA sn nd.namespace_ hs

/-- Every non-success exit of gnnBody goes through cleanup, which leaves
both caller arrays in the zero state. -/
theorem gnnBody_zero_on_error (alloc : Nat → Bool) (q : DomainParticipantQos)
    (ns : String) (hs : List DiscoveredParticipant) :
    (gnnBody alloc q ns hs).ret = RmwRet.ok ∨
    ((gnnBody alloc q ns hs).node_names = [] ∧
     (gnnBody alloc q ns hs).node_namespaces = []) := by
  unfold gnnBody
  dsimp only
  repeat' split
  all_goals simp [gnnCleanup]

/-- With zero-initialized caller arrays, every exit of get_node_names
either reports success or leaves both arrays zero. -/
theorem get_node_names_zero_on_error (impl : Nat) (node : Option NodeHandle)
    (alloc : Nat → Bool) :
    (get_node_names impl node [] [] alloc).ret = RmwRet.ok ∨
    ((get_node_names impl node [] [] alloc).node_names = [] ∧
     (get_node_names impl node [] [] alloc).node_namespaces = []) := by
  unfold get_node_names
  repeat' split
  · exact Or.inr ⟨rfl, rfl⟩
  · exact Or.inr ⟨rfl, rfl⟩
  · exact Or.inr ⟨rfl, rfl⟩
  · exact Or.inr ⟨rfl, rfl⟩
  · exact Or.inr ⟨rfl, rfl⟩
  · exact gnnBody_zero_on_error _ _ _ _

/-- The loop can only increase the write index, by at most one per
participant, and never changes the buffer lengths. -/
theorem gnnLoop_bounds (alloc : Nat → Bool) (rret : RcutilsRet) :
    ∀ (ps : List DiscoveredParticipant) (i num c : Nat) (tmpN tmpNs : StringArray)
      (out : StringArray × StringArray × Nat × Nat),
      gnnLoop alloc rret ps i tmpN tmpNs num c = .ok out →
      num ≤ out.2.2.1 ∧ out.2.2.1 ≤ num + ps.length ∧
      out.1.length = tmpN.length ∧ out.2.1.length = tmpNs.length := by
  intro ps
  induction ps with
  | nil =>
    intro i num c tmpN tmpNs out h
    simp only [gnnLoop] at h
    cases h
    simp
  | cons p rest ih =>
    intro i num c tmpN tmpNs out h
    rw [gnnLoop] at h
    split at h
    · have := ih (i + 1) num c (tmpN.set i none) (tmpNs.set i none) out h
      simp only [List.length_set, List.length_cons] at this ⊢
      omega
    · simp only [rcutils_strdup] at h
      split at h
      · exact absurd h (by simp)
      · split at h
        · exact absurd h (by simp)
        · have := ih (i + 1) (num + 1) (c + 2) _ _ out h
          simp only [List.length_set, List.length_cons] at this ⊢
          omega

/-- The participant loop processes an appended list by first processing
the prefix and then continuing from the resulting state. -/
theorem gnnLoop_append (alloc : Nat → Bool) (rret : RcutilsRet) :
    ∀ (pre rest : List DiscoveredParticipant) (i num c : Nat) (tmpN tmpNs : StringArray),
      gnnLoop alloc rret (pre ++ rest) i tmpN tmpNs num c =
        match gnnLoop alloc rret pre i tmpN tmpNs num c with
        | .error r => .error r
        | .ok (tN, tNs, num₂, c₂) => gnnLoop alloc rret rest (i + pre.length) tN tNs num₂ c₂ := by
  intro pre
  induction pre with
  | nil =>
    intro rest i num c tmpN tmpNs
    simp [gnnLoop]
  | cons p pre ih =>
    intro rest i num c tmpN tmpNs
    rw [List.cons_append, gnnLoop, gnnLoop]
    split
    · rw [ih]
      have : i + (p :: pre).length = (i + 1) + pre.length := by simp; omega
      rw [this]
    · simp only
      split
      · rfl
      · split
        · rfl
        · rw [ih]
          have : i + (p :: pre).length = (i + 1) + pre.length := by simp; omega
          rw [this]

/-- Participants whose per-participant data fetch failed resolve to an
empty name, hence contribute nothing to the named snapshot. -/
theorem namedParticipants_filter_dataOk (ps : List DiscoveredParticipant) :
    namedParticipants ps = namedParticipants (ps.filter (fun p => p.dataOk)) := by
  induction ps with
  | nil => rfl
  | cons p rest ih =>
    by_cases h : p.dataOk
    · rw [namedParticipants_cons, List.filter_cons_of_pos h, namedParticipants_cons, ih]
    · have hres : resolveName p = ("", "") := by
        simp [resolveName, h]
      rw [namedParticipants_cons, List.filter_cons_of_neg (by simpa using h), hres]
      simpa using ih

/-- The listener body applied to one sample: an add for a valid, alive
sample; a remove otherwise. -/
theorem processSamples_cons (d : PublicationBuiltinTopicData) (info : SampleInfo)
    (rest : List (PublicationBuiltinTopicData × SampleInfo)) :
    processSamples ((d, info) :: rest) =
      (if info.valid_data = true ∧ info.instance_state = InstanceState.alive then
        CacheOp.add (DDS_BuiltinTopicKey_to_GUID d.participant_key)
          (DDS_InstanceHandle_to_GUID info.instance_handle)
          d.topic_name d.type_name EntityType.Publisher
      else
        CacheOp.remove (DDS_InstanceHandle_to_GUID info.instance_handle)
          EntityType.Publisher) :: processSamples rest := by
  by_cases h1 : info.valid_data = true
  · by_cases h2 : info.instance_state = InstanceState.alive <;>
      simp [processSamples, h1, h2]
  · simp [processSamples, h1]

theorem processSamples_length (samples : List (PublicationBuiltinTopicData × SampleInfo)) :
    (processSamples samples).length = samples.length := by
  induction samples with
  | nil => rfl
  | cons s rest ih =>
    obtain ⟨d, info⟩ := s
    rw [processSamples_cons]
    simp [ih]

theorem namedParticipants_append (l r : List DiscoveredParticipant) :
    namedParticipants (l ++ r) = namedParticipants l ++ namedParticipants r := by
  simp [namedParticipants, List.filter_append]

theorem namedParticipants_ne_empty {nn : String × String} {ps : List DiscoveredParticipant}
    (h : nn ∈ namedParticipants ps) : nn.1 ≠ "" := by
  have := (List.mem_filter.mp h).2
  simpa using this

/-- Index-wise characterization of the listener's per-sample dispatch. -/
theorem processSamples_get (samples : List (PublicationBuiltinTopicData × SampleInfo)) :
    ∀ (i : Nat) (d : PublicationBuiltinTopicData) (info : SampleInfo),
      samples[i]? = some (d, info) →
      (processSamples samples)[i]? = some
        (if info.valid_data = true ∧ info.instance_state = InstanceState.alive then
          CacheOp.add (DDS_BuiltinTopicKey_to_GUID d.participant_key)
            (DDS_InstanceHandle_to_GUID info.instance_handle)
            d.topic_name d.type_name EntityType.Publisher
        else
          CacheOp.remove (DDS_InstanceHandle_to_GUID info.instance_handle)
            EntityType.Publisher) := by
  induction samples with
  | nil => intro i d info h; simp at h
  | cons s rest ih =>
    intro i d info h
    obtain ⟨d₀, info₀⟩ := s
    rw [processSamples_cons]
    cases i with
    | zero =>
      simp only [List.getElem?_cons_zero, Option.some_inj] at h
      obtain ⟨rfl, rfl⟩ := Prod.mk.injEq .. ▸ h
      simp
    | succ i =>
      simp only [List.getElem?_cons_succ] at h ⊢
      exact ih i d info h

/-- Concrete fixtures used by witnesses. -/
def sampleParticipant : DiscoveredParticipant :=
  ⟨true, [("name", "robot1"), ("namespace", "/fleet")], none⟩

def sampleParticipantBad : DiscoveredParticipant :=
  ⟨false, [("name", "ghost")], some "ghost"⟩

def sampleNode : NodeHandle :=
  ⟨0, "/ns", ⟨⟨some [sampleParticipant], some ⟨some "self"⟩⟩⟩⟩

def sampleNode2 : NodeHandle :=
  ⟨0, "/ns", ⟨⟨some [sampleParticipantBad, sampleParticipant], some ⟨some "self"⟩⟩⟩⟩

/-! ### Claims -/

/-- C1 (amended: provided every allocation during the call succeeds): for a
node with a valid handle, zero-initialized node_names, successful discovery
fetches and a non-null own participant name, get_node_names returns
RMW_RET_OK with node_names and node_namespaces equal-length, of length one
plus the number of discovered participants with a non-empty resolved name,
every slot populated, index 0 the caller's own participant name paired with
the node's namespace, and index i ≥ 1 the i-th named participant's pair. -/
theorem claim1_success_shape (impl : Nat) (nd : NodeHandle) (nss0 : StringArray)
    (alloc : Nat → Bool) (hA : ∀ k, alloc k = true)
    (himpl : nd.implementation_identifier = impl)
    (hs : List DiscoveredParticipant)
    (hdisc : nd.data.participant.discovered_participants = some hs)
    (sn : String) (hq : nd.data.participant.qos = some ⟨some sn⟩) :
    get_node_names impl (some nd) [] nss0 alloc =
      ⟨RmwRet.ok,
       some sn :: (namedParticipants hs).map (fun nn => some nn.1),
       some nd.namespace_ :: (namedParticipants hs).map (fun nn => some nn.2)⟩ ∧
    (get_node_names impl (some nd) [] nss0 alloc).node_names.length
        = (get_node_names impl (some nd) [] nss0 alloc).node_namespaces.length ∧
    (get_node_names impl (some nd) [] nss0 alloc).node_names.length
        = 1 + (namedParticipants hs).length ∧
    ∀ x ∈ (get_node_names impl (some nd) [] nss0 alloc).node_names
        ++ (get_node_names impl (some nd) [] nss0 alloc).node_namespaces, x ≠ none := by
  have h := get_node_names_ok_spec impl nd nss0 alloc hA himpl hs hdisc sn hq
  refine ⟨h, ?_, ?_, ?_⟩
  · rw [h]; simp
  · rw [h]; simp [Nat.add_comm]
  · rw [h]
    intro x hx
    simp only [List.mem_append, List.mem_cons, List.mem_map] at hx
    rcases hx with (rfl | ⟨nn, _, rfl⟩) | (rfl | ⟨nn, _, rfl⟩) <;> simp

/-- C1 counterexample (refuting the claim as frozen): with an allocator
failing at the strdup of the node's own name, get_node_names returns
RMW_RET_OK although the output arrays are empty rather than of length one
plus the number of named participants (here 1 + 1 = 2). -/
theorem claim1_counterexample :
    (get_node_names 0 (some sampleNode) [] [] (fun k => decide (k < 2))).ret = RmwRet.ok ∧
    (get_node_names 0 (some sampleNode) [] [] (fun k => decide (k < 2))).node_names.length
        ≠ 1 + (namedParticipants [sampleParticipant]).length := by
  decide

/-- C1 witness: the amended theorem applied to a concrete node with one
named discovered participant. -/
theorem claim1_witness :
    get_node_names 0 (some sampleNode) [] [] (fun _ => true) =
      ⟨RmwRet.ok,
       some "self" :: (namedParticipants [sampleParticipant]).map (fun nn => some nn.1),
       some "/ns" :: (namedParticipants [sampleParticipant]).map (fun nn => some nn.2)⟩ ∧
    (get_node_names 0 (some sampleNode) [] [] (fun _ => true)).node_names.length
        = (get_node_names 0 (some sampleNode) [] [] (fun _ => true)).node_namespaces.length ∧
    (get_node_names 0 (some sampleNode) [] [] (fun _ => true)).node_names.length
        = 1 + (namedParticipants [sampleParticipant]).length ∧
    ∀ x ∈ (get_node_names 0 (some sampleNode) [] [] (fun _ => true)).node_names
        ++ (get_node_names 0 (some sampleNode) [] [] (fun _ => true)).node_namespaces,
      x ≠ none :=
  claim1_success_shape 0 sampleNode [] (fun _ => true) (fun _ => rfl) rfl
    [sampleParticipant] rfl "self" rfl

/-- C2: the claim (any rcutils_string_array_init or rcutils_strdup failure
yields a non-OK resource-exhaustion status) matches the evident intent —
the code sets an allocation-failure error message and unwinds — but on the
strdup failure paths final_ret is computed from the stale rcutils_ret
(still RCUTILS_RET_OK from the last successful init), so the function
returns RMW_RET_OK.  This theorem evaluates the code at such a failing
input: the allocator fails at the third request, the strdup of the node's
own name. -/
theorem claim2_strdup_failure_returns_ok :
    get_node_names 0 (some sampleNode) [] [] (fun k => decide (k < 2)) =
      ⟨RmwRet.ok, [], []⟩ := by
  decide

/-- C3 (amended: in the fallback case the namespace is still taken from
the user-data namespace entry, so the pair is (pname, ns) with ns the
user-data namespace value or "" when absent — not always (pname, "")):
name resolution takes the user-data name when present and non-empty, else
the transport participant name, and a participant whose resolved name is
empty is excluded from the named output entirely. -/
theorem claim3_resolution (p : DiscoveredParticipant) (h : p.dataOk = true) :
    (∀ v, p.userData.lookup "name" = some v → v ≠ "" →
        resolveName p = (v, (p.userData.lookup "namespace").getD "")) ∧
    ((p.userData.lookup "name").getD "" = "" →
        resolveName p =
          (p.participant_name.getD "", (p.userData.lookup "namespace").getD "")) ∧
    ((p.userData.lookup "name").getD "" = "" → p.participant_name.getD "" = "" →
        ∀ (l r : List DiscoveredParticipant),
          namedParticipants (l ++ p :: r) = namedParticipants (l ++ r)) := by
  have hfb : (p.userData.lookup "name").getD "" = "" →
      resolveName p =
        (p.participant_name.getD "", (p.userData.lookup "namespace").getD "") := by
    intro hname
    cases hn : p.userData.lookup "name" with
    | none =>
      cases hpn : p.participant_name <;> cases hns : p.userData.lookup "namespace" <;>
        simp [resolveName, h, hn, hpn, hns]
    | some v =>
      rw [hn] at hname
      simp only [Option.getD_some] at hname
      subst hname
      cases hpn : p.participant_name <;> cases hns : p.userData.lookup "namespace" <;>
        simp [resolveName, h, hn, hpn, hns]
  refine ⟨?_, hfb, ?_⟩
  · intro v hv hne
    cases hns : p.userData.lookup "namespace" <;>
      simp [resolveName, h, hv, hne, hns]
  · intro hname hpn l r
    have hres : (resolveName p).1 = "" := by
      rw [hfb hname]
      simpa using hpn
    rw [namedParticipants_append, namedParticipants_append, namedParticipants_cons,
      if_pos hres]

/-- C3 counterexample (refuting the claim as frozen): a participant whose
user-data has no name but a namespace entry "/fleet", with transport
participant name "pname", resolves to ("pname", "/fleet"), not to
("pname", ""). -/
theorem claim3_counterexample :
    resolveName ⟨true, [("namespace", "/fleet")], some "pname"⟩ ≠ ("pname", "") := by
  decide

/-- C3 witness: the amended resolution rule applied to a concrete
participant carrying both user-data entries. -/
theorem claim3_witness :
    resolveName ⟨true, [("name", "robot1"), ("namespace", "/fleet")], none⟩
      = ("robot1", "/fleet") := by
  have h := (claim3_resolution ⟨true, [("name", "robot1"), ("namespace", "/fleet")], none⟩
    rfl).1 "robot1" (by decide) (by decide)
  simpa using h

/-- C4: with zero-initialized caller arrays, every failing return of
get_node_names (early checks included, so in particular every failure
after them) leaves both output arrays in the zero state: the cleanup path
finalizes every partially allocated array back to zero and the pre-body
returns never touch them. -/
theorem claim4_failure_leaves_zero (impl : Nat) (node : Option NodeHandle)
    (alloc : Nat → Bool)
    (hfail : (get_node_names impl node [] [] alloc).ret ≠ RmwRet.ok) :
    (get_node_names impl node [] [] alloc).node_names = [] ∧
    (get_node_names impl node [] [] alloc).node_namespaces = [] :=
  (get_node_names_zero_on_error impl node alloc).resolve_left hfail

/-- C4 witness: a run whose first allocation fails returns a non-OK status
with both arrays zero. -/
theorem claim4_witness :
    (get_node_names 0 (some sampleNode) [] [] (fun _ => false)).node_names = [] ∧
    (get_node_names 0 (some sampleNode) [] [] (fun _ => false)).node_namespaces = [] :=
  claim4_failure_leaves_zero 0 (some sampleNode) (fun _ => false) (by decide)

/-- C5 (amended: only node_names is checked for zero-initialization; if it
is non-zero the function fails with RMW_RET_ERROR before fetching any
discovery data or allocating — the result does not depend on the
participant state or the allocator — while node_namespaces is never
checked): the early zero check covers node_names alone. -/
theorem claim5_names_checked_only (impl : Nat) (nd : NodeHandle)
    (names nss : StringArray) (alloc : Nat → Bool)
    (himpl : nd.implementation_identifier = impl) (hne : names ≠ []) :
    get_node_names impl (some nd) names nss alloc = ⟨RmwRet.error, names, nss⟩ := by
  have hz : rmw_check_zero_rmw_string_array names ≠ RmwRet.ok := by
    simp [rmw_check_zero_rmw_string_array, hne]
  simp [get_node_names, himpl, hz]

/-- C5 counterexample (refuting the claim as frozen): with node_namespaces
not zero-initialized (and node_names zero), get_node_names does not fail:
it proceeds through discovery and returns RMW_RET_OK. -/
theorem claim5_counterexample :
    (get_node_names 0 (some sampleNode) [] [some "x"] (fun _ => true)).ret = RmwRet.ok := by
  decide

/-- C5 witness: the amended theorem applied to a non-zero node_names
array. -/
theorem claim5_witness :
    get_node_names 0 (some sampleNode) [some "y"] [] (fun _ => true)
      = ⟨RmwRet.error, [some "y"], []⟩ :=
  claim5_names_checked_only 0 sampleNode [some "y"] [] (fun _ => true) rfl (by decide)

/-- C6 (amended: the non-emptiness guarantee holds for every entry after
index 0 — discovered participants with an empty resolved name are excluded
rather than surfaced — while index 0 carries the configured participant
name verbatim, which is non-empty only when configured non-empty; the code
never checks it): on a successful call every tail entry of node_names is a
non-empty string. -/
theorem claim6_nonempty_names (impl : Nat) (nd : NodeHandle) (nss0 : StringArray)
    (alloc : Nat → Bool) (hA : ∀ k, alloc k = true)
    (himpl : nd.implementation_identifier = impl)
    (hs : List DiscoveredParticipant)
    (hdisc : nd.data.participant.discovered_participants = some hs)
    (sn : String) (hq : nd.data.participant.qos = some ⟨some sn⟩) :
    (get_node_names impl (some nd) [] nss0 alloc).node_names.head? = some (some sn) ∧
    ∀ x ∈ (get_node_names impl (some nd) [] nss0 alloc).node_names.tail,
      ∃ s, x = some s ∧ s ≠ "" := by
  have h := get_node_names_ok_spec impl nd nss0 alloc hA himpl hs hdisc sn hq
  rw [h]
  refine ⟨rfl, ?_⟩
  intro x hx
  simp only [List.tail_cons, List.mem_map] at hx
  obtain ⟨nn, hmem, rfl⟩ := hx
  exact ⟨nn.1, rfl, namedParticipants_ne_empty hmem⟩

/-- C6 counterexample (refuting the claim as frozen): when the node's own
participant name is configured as the empty string, get_node_names
succeeds and returns the empty string at index 0 of node_names. -/
theorem claim6_counterexample :
    (get_node_names 0 (some ⟨0, "/ns", ⟨⟨some [], some ⟨some ""⟩⟩⟩⟩) [] []
        (fun _ => true)).ret = RmwRet.ok ∧
    (get_node_names 0 (some ⟨0, "/ns", ⟨⟨some [], some ⟨some ""⟩⟩⟩⟩) [] []
        (fun _ => true)).node_names = [some ""] := by
  decide

/-- C6 witness: the amended theorem applied to a concrete node with one
named discovered participant. -/
theorem claim6_witness :
    (get_node_names 0 (some sampleNode) [] [] (fun _ => true)).node_names.head?
        = some (some "self") ∧
    ∀ x ∈ (get_node_names 0 (some sampleNode) [] [] (fun _ => true)).node_names.tail,
      ∃ s, x = some s ∧ s ≠ "" :=
  claim6_nonempty_names 0 sampleNode [] (fun _ => true) (fun _ => rfl) rfl
    [sampleParticipant] rfl "self" rfl

/-- C7: each taken sample is applied to the cache by exactly one of two
operations — an add carrying the participant GUID extracted from the
sample's participant key, the entity GUID extracted from the instance
handle, the topic name, the type name and Publisher kind when the sample
has valid data and an alive instance state, and a remove with the entity
GUID and Publisher kind otherwise — with one operation per sample. -/
theorem claim7_sample_dispatch (samples : List (PublicationBuiltinTopicData × SampleInfo)) :
    (on_data_available true (TakeResult.ok samples)).1.length = samples.length ∧
    ∀ (i : Nat) (d : PublicationBuiltinTopicData) (info : SampleInfo),
      samples[i]? = some (d, info) →
      (on_data_available true (TakeResult.ok samples)).1[i]? = some
        (if info.valid_data = true ∧ info.instance_state = InstanceState.alive then
          CacheOp.add (DDS_BuiltinTopicKey_to_GUID d.participant_key)
            (DDS_InstanceHandle_to_GUID info.instance_handle)
            d.topic_name d.type_name EntityType.Publisher
        else
          CacheOp.remove (DDS_InstanceHandle_to_GUID info.instance_handle)
            EntityType.Publisher) := by
  constructor
  · simp [on_data_available, processSamples_length]
  · intro i d info h
    simpa [on_data_available] using processSamples_get samples i d info h

/-- C7 witness: a valid alive sample maps to the add operation with the
extracted GUIDs. -/
theorem claim7_witness :
    (on_data_available true
        (TakeResult.ok [(⟨⟨5⟩, "topic", "type"⟩, ⟨true, InstanceState.alive, ⟨9⟩⟩)])).1[0]?
      = some (CacheOp.add ⟨5⟩ ⟨9⟩ "topic" "type" EntityType.Publisher) := by
  have h := (claim7_sample_dispatch
    [(⟨⟨5⟩, "topic", "type"⟩, ⟨true, InstanceState.alive, ⟨9⟩⟩)]).2 0 _ _ rfl
  simpa using h

/-- C8: the graph guard condition is triggered exactly once when the take
yielded at least one sample and zero times otherwise (narrow failure,
no-data, take error), and the trigger count differs from the sample count
whenever more than one sample is processed. -/
theorem claim8_trigger_coalesced :
    (∀ samples, (on_data_available true (TakeResult.ok samples)).2
        = if 0 < samples.length then 1 else 0) ∧
    (∀ tk, (on_data_available false tk).2 = 0) ∧
    (∀ b, (on_data_available b TakeResult.noData).2 = 0) ∧
    (∀ b, (on_data_available b TakeResult.error).2 = 0) ∧
    (∀ samples, 1 < samples.length →
        (on_data_available true (TakeResult.ok samples)).2 ≠ samples.length) := by
  refine ⟨?_, ?_, ?_, ?_, ?_⟩
  · intro samples
    simp [on_data_available]
  · intro tk
    simp [on_data_available]
  · intro b
    cases b <;> simp [on_data_available]
  · intro b
    cases b <;> simp [on_data_available]
  · intro samples hlen
    simp only [on_data_available, Bool.not_true, Bool.false_eq_true, if_false]
    rw [if_pos (by omega)]
    omega

/-- C8 witness: with two samples the guard condition fires once, not
twice. -/
theorem claim8_witness :
    (on_data_available true
        (TakeResult.ok [(⟨⟨1⟩, "t", "u"⟩, ⟨true, InstanceState.alive, ⟨2⟩⟩),
          (⟨⟨1⟩, "t", "u"⟩, ⟨false, InstanceState.alive, ⟨3⟩⟩)])).2 ≠ 2 :=
  claim8_trigger_coalesced.2.2.2.2
    [(⟨⟨1⟩, "t", "u"⟩, ⟨true, InstanceState.alive, ⟨2⟩⟩),
      (⟨⟨1⟩, "t", "u"⟩, ⟨false, InstanceState.alive, ⟨3⟩⟩)] (by decide)

/-- C9 (implicit): a failing get_discovered_participant_data does not make
get_node_names return a transport error — the call still returns
RMW_RET_OK (no allocation failing) and the affected participant is
silently omitted: the output is exactly that computed from the
participants whose data fetch succeeded. -/
theorem claim9_data_fetch_failure_tolerated (impl : Nat) (nd : NodeHandle)
    (nss0 : StringArray) (alloc : Nat → Bool) (hA : ∀ k, alloc k = true)
    (himpl : nd.implementation_identifier = impl)
    (hs : List DiscoveredParticipant)
    (hdisc : nd.data.participant.discovered_participants = some hs)
    (sn : String) (hq : nd.data.participant.qos = some ⟨some sn⟩) :
    (get_node_names impl (some nd) [] nss0 alloc).ret = RmwRet.ok ∧
    (get_node_names impl (some nd) [] nss0 alloc).node_names =
      some sn :: (namedParticipants (hs.filter (fun p => p.dataOk))).map
        (fun nn => some nn.1) ∧
    (get_node_names impl (some nd) [] nss0 alloc).node_namespaces =
      some nd.namespace_ :: (namedParticipants (hs.filter (fun p => p.dataOk))).map
        (fun nn => some nn.2) := by
  have h := get_node_names_ok_spec impl nd nss0 alloc hA himpl hs hdisc sn hq
  rw [h]
  exact ⟨rfl, by rw [← namedParticipants_filter_dataOk],
    by rw [← namedParticipants_filter_dataOk]⟩

/-- C9 witness: a node discovering one participant whose data fetch fails
and one named participant still gets RMW_RET_OK, with only the named one
(and self) in the output. -/
theorem claim9_witness :
    (get_node_names 0 (some sampleNode2) [] [] (fun _ => true)).ret = RmwRet.ok ∧
    (get_node_names 0 (some sampleNode2) [] [] (fun _ => true)).node_names =
      some "self" :: (namedParticipants
        ([sampleParticipantBad, sampleParticipant].filter (fun p => p.dataOk))).map
          (fun nn => some nn.1) ∧
    (get_node_names 0 (some sampleNode2) [] [] (fun _ => true)).node_namespaces =
      some "/ns" :: (namedParticipants
        ([sampleParticipantBad, sampleParticipant].filter (fun p => p.dataOk))).map
          (fun nn => some nn.2) :=
  claim9_data_fetch_failure_tolerated 0 sampleNode2 [] (fun _ => true) (fun _ => rfl)
    rfl [sampleParticipantBad, sampleParticipant] rfl "self" rfl

/-- C10 (implicit safety): running the participant loop over any prefix of
the handle list from the initial state (i = 1, named_nodes_num = 1) with
temporaries of the allocated size n + 1 yields, at the start of the
iteration that will process the rest, 1 ≤ named_nodes_num ≤ i with
i = 1 + prefix length; the buffer lengths are preserved, the upcoming
write indices i and named_nodes_num are below n + 1 whenever an iteration
remains, and the final output length named_nodes_num never exceeds the
temporary buffer length. -/
theorem claim10_loop_write_bounds (alloc : Nat → Bool) (rret : RcutilsRet)
    (hs pre rest : List DiscoveredParticipant) (hsplit : hs = pre ++ rest)
    (tmpN tmpNs : StringArray)
    (hN : tmpN.length = hs.length + 1) (hNs : tmpNs.length = hs.length + 1)
    (c : Nat) (st : StringArray × StringArray × Nat × Nat)
    (hrun : gnnLoop alloc rret pre 1 tmpN tmpNs 1 c = .ok st) :
    1 ≤ st.2.2.1 ∧ st.2.2.1 ≤ 1 + pre.length ∧
    st.1.length = hs.length + 1 ∧ st.2.1.length = hs.length + 1 ∧
    (rest ≠ [] → 1 + pre.length < hs.length + 1 ∧ st.2.2.1 < hs.length + 1) ∧
    st.2.2.1 ≤ hs.length + 1 := by
  obtain ⟨h1, h2, h3, h4⟩ := gnnLoop_bounds alloc rret pre 1 1 c tmpN tmpNs st hrun
  subst hsplit
  have hlen : (pre ++ rest).length = pre.length + rest.length := List.length_append pre rest
  refine ⟨h1, h2, by omega, by omega, ?_, by omega⟩
  intro hne
  have hpos : 0 < rest.length := List.length_pos.mpr hne
  omega

/-- C10 witness: the invariant at the start of the first iteration of a
one-participant run. -/
theorem claim10_witness :
    1 ≤ 1 ∧ 1 ≤ 1 + 0 ∧ 2 = 2 ∧ 2 = 2 ∧
    ([sampleParticipant] ≠ ([] : List DiscoveredParticipant) → 1 + 0 < 2 ∧ 1 < 2) ∧
    1 ≤ 2 :=
  claim10_loop_write_bounds (fun _ => true) RcutilsRet.ok [sampleParticipant] []
    [sampleParticipant] rfl (List.replicate 2 none) (List.replicate 2 none) rfl rfl 0
    (List.replicate 2 none, List.replicate 2 none, 1, 0) rfl

end RmwConnext
